import Mathlib

/-!
Shallow embedding of the `milliseconds` library:
`src/milliseconds/constants.py` and `src/milliseconds/milliseconds.py`.

Timestamps are signed integers of milliseconds since the Unix epoch,
modelled as `Int`.  Python's `//` is floor division (toward negative
infinity) and raises `ZeroDivisionError` on a zero divisor; we model it
with `Int.fdiv` wrapped in `Option`, where `none` stands for the raised
`ZeroDivisionError`.  Python's `%` follows the same convention and is
modelled with `Int.fmod`.
-/

namespace Milliseconds

namespace constants

/-- Milliseconds in one second, `constants.second = 1_000`. -/
def second : Int := 1000

/-- Milliseconds in one minute, `constants.minute = 60_000`. -/
def minute : Int := 60000

/-- Milliseconds in one hour, `constants.hour = 3_600_000`. -/
def hour : Int := 3600000

/-- Milliseconds in one day, `constants.day = 86_400_000`. -/
def day : Int := 86400000

end constants

/-- Python floor division `a // b`: rounds toward negative infinity;
`none` models the `ZeroDivisionError` raised when `b = 0`. -/
def pyFloorDiv (a b : Int) : Option Int :=
  if b = 0 then none else some (Int.fdiv a b)

/-- Python modulo `a % b`: the result carries the divisor's sign;
`none` models the `ZeroDivisionError` raised when `b = 0`. -/
def pyMod (a b : Int) : Option Int :=
  if b = 0 then none else some (Int.fmod a b)

/-- Python `int(q)` applied to a numeric value: truncation toward zero.
The floating-point products `constants.<unit> * n` of the source are
idealized as exact rational arithmetic. -/
def pyInt (q : ℚ) : Int :=
  if 0 ≤ q then ⌊q⌋ else ⌈q⌉

/-- `milliseconds.floor`: `return (milliseconds // factor) * factor`,
with default `factor = constants.hour`. -/
def floor (milliseconds : Int) (factor : optParam Int constants.hour) : Option Int :=
  (pyFloorDiv milliseconds factor).map (fun q => q * factor)

/-- `milliseconds.ceil`: for `milliseconds >= 0` it returns
`((milliseconds + factor - 1) // factor) * factor`; otherwise it computes
`floored = (milliseconds // factor) * factor` and returns `floored` when
already aligned, else `floored + factor`.  Default `factor = constants.hour`. -/
def ceil (milliseconds : Int) (factor : optParam Int constants.hour) : Option Int :=
  if 0 ≤ milliseconds then
    (pyFloorDiv (milliseconds + factor - 1) factor).map (fun q => q * factor)
  else
    (pyFloorDiv milliseconds factor).map (fun q =>
      let floored := q * factor
      if milliseconds = floored then floored else floored + factor)

/-- `milliseconds.last_second`: `floor(timestamp, constants.second) - constants.second`. -/
def last_second (timestamp : Int) : Option Int :=
  (floor timestamp constants.second).map (fun x => x - constants.second)

/-- `milliseconds.next_second`: `floor(timestamp, constants.second) + constants.second`. -/
def next_second (timestamp : Int) : Option Int :=
  (floor timestamp constants.second).map (fun x => x + constants.second)

/-- `milliseconds.last_minute`: `floor(timestamp, constants.minute) - constants.minute`. -/
def last_minute (timestamp : Int) : Option Int :=
  (floor timestamp constants.minute).map (fun x => x - constants.minute)

/-- `milliseconds.next_minute`: `floor(timestamp, constants.minute) + constants.minute`. -/
def next_minute (timestamp : Int) : Option Int :=
  (floor timestamp constants.minute).map (fun x => x + constants.minute)

/-- `milliseconds.last_hour`: `floor(timestamp, constants.hour) - constants.hour`. -/
def last_hour (timestamp : Int) : Option Int :=
  (floor timestamp constants.hour).map (fun x => x - constants.hour)

/-- `milliseconds.next_hour`: `floor(timestamp, constants.hour) + constants.hour`. -/
def next_hour (timestamp : Int) : Option Int :=
  (floor timestamp constants.hour).map (fun x => x + constants.hour)

/-- `milliseconds.last_day`: `floor(timestamp, constants.day) - constants.day`. -/
def last_day (timestamp : Int) : Option Int :=
  (floor timestamp constants.day).map (fun x => x - constants.day)

/-- `milliseconds.next_day`: `floor(timestamp, constants.day) + constants.day`. -/
def next_day (timestamp : Int) : Option Int :=
  (floor timestamp constants.day).map (fun x => x + constants.day)

/-- `milliseconds.is_valid_second`: `timestamp % constants.second == 0`
(the divisor is the nonzero constant 1000, so the modulo never raises). -/
def is_valid_second (timestamp : Int) : Bool :=
  pyMod timestamp constants.second == some 0

/-- `milliseconds.is_valid_minute`: `timestamp % constants.minute == 0`. -/
def is_valid_minute (timestamp : Int) : Bool :=
  pyMod timestamp constants.minute == some 0

/-- `milliseconds.is_valid_hour`: `timestamp % constants.hour == 0`. -/
def is_valid_hour (timestamp : Int) : Bool :=
  pyMod timestamp constants.hour == some 0

/-- `milliseconds.is_valid_day`: `timestamp % constants.day == 0`. -/
def is_valid_day (timestamp : Int) : Bool :=
  pyMod timestamp constants.day == some 0

/-- `milliseconds.increment_second`: `timestamp + int(constants.second * n)`,
default `n = 1`. -/
def increment_second (timestamp : Int) (n : optParam ℚ 1) : Int :=
  timestamp + pyInt ((constants.second : ℚ) * n)

/-- `milliseconds.decrement_second`: `timestamp - int(constants.second * n)`. -/
def decrement_second (timestamp : Int) (n : optParam ℚ 1) : Int :=
  timestamp - pyInt ((constants.second : ℚ) * n)

/-- `milliseconds.increment_minute`: `timestamp + int(constants.minute * n)`. -/
def increment_minute (timestamp : Int) (n : optParam ℚ 1) : Int :=
  timestamp + pyInt ((constants.minute : ℚ) * n)

/-- `milliseconds.decrement_minute`: `timestamp - int(constants.minute * n)`. -/
def decrement_minute (timestamp : Int) (n : optParam ℚ 1) : Int :=
  timestamp - pyInt ((constants.minute : ℚ) * n)

/-- `milliseconds.increment_hour`: `timestamp + int(constants.hour * n)`. -/
def increment_hour (timestamp : Int) (n : optParam ℚ 1) : Int :=
  timestamp + pyInt ((constants.hour : ℚ) * n)

/-- `milliseconds.decrement_hour`: `timestamp - int(constants.hour * n)`. -/
def decrement_hour (timestamp : Int) (n : optParam ℚ 1) : Int :=
  timestamp - pyInt ((constants.hour : ℚ) * n)

/-- `milliseconds.increment_day`: `timestamp + int(constants.day * n)`. -/
def increment_day (timestamp : Int) (n : optParam ℚ 1) : Int :=
  timestamp + pyInt ((constants.day : ℚ) * n)

/-- `milliseconds.decrement_day`: `timestamp - int(constants.day * n)`. -/
def decrement_day (timestamp : Int) (n : optParam ℚ 1) : Int :=
  timestamp - pyInt ((constants.day : ℚ) * n)

/-! ### Helper lemmas about the embedding -/

theorem pyFloorDiv_of_pos {b : Int} (a : Int) (hb : 0 < b) :
    pyFloorDiv a b = some (a / b) := by
  simp [pyFloorDiv, hb.ne', Int.fdiv_eq_ediv a hb.le]

theorem floor_of_pos {b : Int} (a : Int) (hb : 0 < b) :
    floor a b = some (a / b * b) := by
  simp [floor, pyFloorDiv_of_pos a hb]

theorem ediv_mul_self_le {b : Int} (a : Int) (hb : 0 < b) : a / b * b ≤ a :=
  Int.ediv_mul_le a hb.ne'

theorem lt_ediv_mul_self_add {b : Int} (a : Int) (hb : 0 < b) : a < a / b * b + b := by
  have h := Int.lt_ediv_add_one_mul_self a hb
  calc a < (a / b + 1) * b := h
    _ = a / b * b + b := by ring

/-- C1: for every integer timestamp `ts` and every positive factor `f`,
`floor ts f` succeeds and returns the greatest multiple of `f` that is
`≤ ts`: the result is a multiple of `f`, is `≤ ts`, `ts` is below the next
multiple, and every multiple of `f` that is `≤ ts` is `≤` the result
(floor rounds toward negative infinity, not toward zero). -/
theorem floor_greatest_multiple_le (ts f : Int) (hf : 0 < f) :
    ∃ x, floor ts f = some x ∧ f ∣ x ∧ x ≤ ts ∧ ts < x + f ∧
      ∀ m : Int, f ∣ m → m ≤ ts → m ≤ x := by
  refine ⟨ts / f * f, floor_of_pos ts hf, dvd_mul_left f (ts / f),
    ediv_mul_self_le ts hf, lt_ediv_mul_self_add ts hf, ?_⟩
  intro m hm hle
  obtain ⟨k, rfl⟩ := hm
  have hk : k ≤ ts / f := by
    rw [Int.le_ediv_iff_mul_le hf]
    calc k * f = f * k := mul_comm k f
      _ ≤ ts := hle
  calc f * k = k * f := mul_comm f k
    _ ≤ ts / f * f := mul_le_mul_of_nonneg_right hk hf.le

/-- C1 witness: the bounds at the concrete spec example
`floor(-50000, 60000) == -60000`. -/
theorem floor_greatest_multiple_le_witness :
    floor (-50000) 60000 = some (-60000) ∧
    ∃ x, floor (-50000) 60000 = some x ∧ (60000 : Int) ∣ x ∧ x ≤ -50000 ∧
      (-50000 : Int) < x + 60000 ∧ ∀ m : Int, (60000 : Int) ∣ m → m ≤ -50000 → m ≤ x :=
  ⟨rfl, floor_greatest_multiple_le (-50000) 60000 (by norm_num)⟩

theorem ediv_of_decomp {b q r : Int} (hb : 0 < b) (h0 : 0 ≤ r) (h1 : r < b) :
    (b * q + r) / b = q := by
  rw [add_comm, Int.add_mul_ediv_left r q hb.ne', Int.ediv_eq_zero_of_lt h0 h1, zero_add]

theorem multiple_close_eq_zero {f d : Int} (hf : 0 < f) (hd : f ∣ d) (h0 : 0 ≤ d)
    (h1 : d < f) : d = 0 := by
  obtain ⟨k, rfl⟩ := hd
  rcases lt_trichotomy k 0 with hk | hk | hk
  · exfalso
    have hk1 : k + 1 ≤ 0 := hk
    nlinarith
  · simp [hk]
  · exfalso
    have hk1 : 1 ≤ k := hk
    nlinarith

theorem ceil_of_nonneg {b : Int} (a : Int) (ha : 0 ≤ a) (hb : 0 < b) :
    ceil a b = some ((a + b - 1) / b * b) := by
  simp [ceil, ha, pyFloorDiv_of_pos _ hb]

theorem ceil_of_neg {b : Int} (a : Int) (ha : a < 0) (hb : 0 < b) :
    ceil a b = some (if a = a / b * b then a / b * b else a / b * b + b) := by
  simp [ceil, not_le.mpr ha, pyFloorDiv_of_pos _ hb]

theorem ceil_char (ts f : Int) (hf : 0 < f) :
    ∃ x, ceil ts f = some x ∧ f ∣ x ∧ x - f < ts ∧ ts ≤ x ∧ (f ∣ ts → x = ts) := by
  rcases le_or_lt 0 ts with hts | hts
  · refine ⟨(ts + f - 1) / f * f, ceil_of_nonneg ts hts hf, dvd_mul_left f _, ?_, ?_, ?_⟩
    · have h := ediv_mul_self_le (ts + f - 1) hf
      omega
    · have h := lt_ediv_mul_self_add (ts + f - 1) hf
      omega
    · intro hdvd
      have hxd : f ∣ (ts + f - 1) / f * f - ts := dvd_sub (dvd_mul_left f _) hdvd
      have h1 := ediv_mul_self_le (ts + f - 1) hf
      have h2 := lt_ediv_mul_self_add (ts + f - 1) hf
      have := multiple_close_eq_zero hf hxd (by omega) (by omega)
      omega
  · rw [ceil_of_neg ts hts hf]
    by_cases hal : ts = ts / f * f
    · refine ⟨ts, by rw [if_pos hal, ← hal], ?_, by omega, le_refl ts, fun _ => rfl⟩
      rw [hal]
      exact dvd_mul_left f _
    · refine ⟨ts / f * f + f, by rw [if_neg hal], ?_, ?_, ?_, ?_⟩
      · exact dvd_add (dvd_mul_left f _) dvd_rfl
      · have h := ediv_mul_self_le ts hf
        omega
      · have h := lt_ediv_mul_self_add ts hf
        omega
      · intro hdvd
        exact absurd (Int.ediv_mul_cancel hdvd).symm hal

theorem ceil_of_dvd {f : Int} (ts : Int) (hf : 0 < f) (h : f ∣ ts) :
    ceil ts f = some ts := by
  have hts : ts / f * f = ts := Int.ediv_mul_cancel h
  rcases le_or_lt 0 ts with h0 | h0
  · rw [ceil_of_nonneg ts h0 hf]
    obtain ⟨q, rfl⟩ := h
    have : (f * q + f - 1) / f = q := by
      have : f * q + f - 1 = f * q + (f - 1) := by ring
      rw [this, ediv_of_decomp hf (by omega) (by omega)]
    rw [this]
    rw [mul_comm]
  · rw [ceil_of_neg ts h0 hf, if_pos hts.symm, hts]

/-- C2: for every integer timestamp `ts` and every positive factor `f`,
`ceil ts f` succeeds and returns the smallest multiple of `f` that is
`≥ ts`: the result is a multiple of `f` with `result - f < ts ≤ result`,
and an already-aligned `ts` is returned unchanged. -/
theorem ceil_least_multiple_ge (ts f : Int) (hf : 0 < f) :
    ∃ x, ceil ts f = some x ∧ f ∣ x ∧ x - f < ts ∧ ts ≤ x ∧ (f ∣ ts → x = ts) :=
  ceil_char ts f hf

/-- C2 witness: the bounds at the concrete spec examples
`ceil(-50000, 60000) == 0` and `ceil(-60000, 60000) == -60000`. -/
theorem ceil_least_multiple_ge_witness :
    ceil (-50000) 60000 = some 0 ∧ ceil (-60000) 60000 = some (-60000) ∧
    ∃ x, ceil (-50000) 60000 = some x ∧ (60000 : Int) ∣ x ∧ x - 60000 < -50000 ∧
      (-50000 : Int) ≤ x ∧ ((60000 : Int) ∣ (-50000 : Int) → x = -50000) :=
  ⟨rfl, rfl, ceil_least_multiple_ge (-50000) 60000 (by norm_num)⟩

/-- Follows the spec's words for the refinement comparison in C3: the
positive-path formula `floor(ts + factor - 1, factor)` taken as a candidate
definition of ceil on arbitrary (possibly negative) `ts`. -/
def ceilPositiveFormula (ts factor : Int) : Option Int :=
  floor (ts + factor - 1) factor

theorem multiple_close_eq_zero' {f d : Int} (hf : 0 < f) (hd : f ∣ d) (h0 : -f < d)
    (h1 : d < f) : d = 0 := by
  rcases le_or_lt 0 d with h | h
  · exact multiple_close_eq_zero hf hd h h1
  · have hneg := multiple_close_eq_zero hf (dvd_neg.mpr hd) (by omega) (by omega)
    omega

theorem ceil_formula_agrees (ts f : Int) (hf : 0 < f) :
    ceilPositiveFormula ts f = ceil ts f := by
  obtain ⟨y, hy, hyd, hy1, hy2, _⟩ := ceil_char ts f hf
  have hx : ceilPositiveFormula ts f = some ((ts + f - 1) / f * f) := by
    rw [ceilPositiveFormula, floor_of_pos _ hf]
  have h1 := ediv_mul_self_le (ts + f - 1) hf
  have h2 := lt_ediv_mul_self_add (ts + f - 1) hf
  have hd : f ∣ ((ts + f - 1) / f * f - y) := dvd_sub (dvd_mul_left f _) hyd
  have hzero : (ts + f - 1) / f * f - y = 0 :=
    multiple_close_eq_zero' hf hd (by linarith) (by linarith)
  rw [hx, hy]
  have : (ts + f - 1) / f * f = y := by linarith
  rw [this]

/-- C3 counterexample: the claim asserts that on some negative `ts` with
positive `f` the positive-path formula `floor(ts + f - 1, f)` and the
implemented negative branch of ceil disagree; in fact no such pair exists. -/
theorem ceil_formula_disagreement_refuted :
    ¬ ∃ ts f : Int, ts < 0 ∧ 0 < f ∧ ceilPositiveFormula ts f ≠ ceil ts f := by
  rintro ⟨ts, f, hts, hf, hne⟩
  exact hne (ceil_formula_agrees ts f hf)

/-- C3 amended: for every integer `ts` (negative included) and every positive
factor `f`, the positive-path formula `floor(ts + f - 1, f)` computed with
floor-toward-negative-infinity division equals the implemented ceil, so the
two are equal as functions wherever the factor is positive. -/
theorem ceil_formula_extends_to_negative (ts f : Int) (hf : 0 < f) :
    ceilPositiveFormula ts f = ceil ts f :=
  ceil_formula_agrees ts f hf

/-- C3 amended witness: agreement at the concrete negative input
`ts = -50000`, `f = 60000`, where both sides evaluate to `0`. -/
theorem ceil_formula_extends_to_negative_witness :
    ceilPositiveFormula (-50000) 60000 = some 0 ∧
    ceilPositiveFormula (-50000) 60000 = ceil (-50000) 60000 :=
  ⟨rfl, ceil_formula_extends_to_negative (-50000) 60000 (by norm_num)⟩

theorem second_pos : (0 : Int) < constants.second := by norm_num [constants.second]

theorem minute_pos : (0 : Int) < constants.minute := by norm_num [constants.minute]

theorem hour_pos : (0 : Int) < constants.hour := by norm_num [constants.hour]

theorem day_pos : (0 : Int) < constants.day := by norm_num [constants.day]

theorem step_spec {f : Int} (hf : 0 < f) (ts : Int) (lastv nextv : Option Int)
    (hl : lastv = (floor ts f).map (fun x => x - f))
    (hn : nextv = (floor ts f).map (fun x => x + f)) :
    ∃ x, floor ts f = some x ∧ lastv = some (x - f) ∧ nextv = some (x + f) ∧
      x - f < x ∧ x ≤ ts ∧ x < x + f ∧ (f ∣ ts → (x + f) - (x - f) = 2 * f) := by
  refine ⟨ts / f * f, floor_of_pos ts hf, ?_, ?_, by linarith, ediv_mul_self_le ts hf,
    by linarith, fun _ => by ring⟩
  · rw [hl, floor_of_pos ts hf]
    rfl
  · rw [hn, floor_of_pos ts hf]
    rfl

/-- C4: for each granularity in {second, minute, hour, day}, `last_<g>`
is `floor(ts, factor) - factor` and `next_<g>` is `floor(ts, factor) + factor`;
hence `last < floor ≤ ts` and `next > floor` (each steps a full unit even on a
boundary), and when `ts` lies exactly on a boundary `next - last = 2 * factor`. -/
theorem last_next_step_full_unit (ts : Int) :
    (∃ x, floor ts constants.second = some x ∧ last_second ts = some (x - constants.second) ∧
      next_second ts = some (x + constants.second) ∧ x - constants.second < x ∧ x ≤ ts ∧
      x < x + constants.second ∧
      (constants.second ∣ ts →
        (x + constants.second) - (x - constants.second) = 2 * constants.second)) ∧
    (∃ x, floor ts constants.minute = some x ∧ last_minute ts = some (x - constants.minute) ∧
      next_minute ts = some (x + constants.minute) ∧ x - constants.minute < x ∧ x ≤ ts ∧
      x < x + constants.minute ∧
      (constants.minute ∣ ts →
        (x + constants.minute) - (x - constants.minute) = 2 * constants.minute)) ∧
    (∃ x, floor ts constants.hour = some x ∧ last_hour ts = some (x - constants.hour) ∧
      next_hour ts = some (x + constants.hour) ∧ x - constants.hour < x ∧ x ≤ ts ∧
      x < x + constants.hour ∧
      (constants.hour ∣ ts →
        (x + constants.hour) - (x - constants.hour) = 2 * constants.hour)) ∧
    (∃ x, floor ts constants.day = some x ∧ last_day ts = some (x - constants.day) ∧
      next_day ts = some (x + constants.day) ∧ x - constants.day < x ∧ x ≤ ts ∧
      x < x + constants.day ∧
      (constants.day ∣ ts →
        (x + constants.day) - (x - constants.day) = 2 * constants.day)) :=
  ⟨step_spec second_pos ts _ _ rfl rfl, step_spec minute_pos ts _ _ rfl rfl,
   step_spec hour_pos ts _ _ rfl rfl, step_spec day_pos ts _ _ rfl rfl⟩

theorem is_valid_char {f : Int} (hf : 0 < f) (ts : Int) :
    ((pyMod ts f == some 0) = true ↔ floor ts f = some ts) ∧
    ((pyMod ts f == some 0) = true ↔ f ∣ ts) := by
  have hmod : pyMod ts f = some (ts % f) := by
    simp [pyMod, hf.ne', Int.fmod_eq_emod ts hf.le]
  have hdvd : (pyMod ts f == some 0) = true ↔ f ∣ ts := by
    rw [hmod]
    constructor
    · intro h
      exact Int.dvd_of_emod_eq_zero (by simpa using h)
    · intro h
      simpa using Int.emod_eq_zero_of_dvd h
  refine ⟨hdvd.trans ?_, hdvd⟩
  constructor
  · intro h
    rw [floor_of_pos ts hf, Int.ediv_mul_cancel h]
  · intro h
    rw [floor_of_pos ts hf] at h
    have hx : ts / f * f = ts := by simpa using h
    rw [← hx]
    exact dvd_mul_left f _

/-- C5: for each granularity in {second, minute, hour, day},
`is_valid_<g> ts` is true exactly when `ts` is a multiple of the factor,
equivalently exactly when `floor(ts, factor) = ts`; the floor-style modulo
sends every exact multiple, negative ones included, to zero. -/
theorem is_valid_iff_aligned (ts : Int) :
    (is_valid_second ts = true ↔ floor ts constants.second = some ts) ∧
    (is_valid_second ts = true ↔ constants.second ∣ ts) ∧
    (is_valid_minute ts = true ↔ floor ts constants.minute = some ts) ∧
    (is_valid_minute ts = true ↔ constants.minute ∣ ts) ∧
    (is_valid_hour ts = true ↔ floor ts constants.hour = some ts) ∧
    (is_valid_hour ts = true ↔ constants.hour ∣ ts) ∧
    (is_valid_day ts = true ↔ floor ts constants.day = some ts) ∧
    (is_valid_day ts = true ↔ constants.day ∣ ts) :=
  ⟨(is_valid_char second_pos ts).1, (is_valid_char second_pos ts).2,
   (is_valid_char minute_pos ts).1, (is_valid_char minute_pos ts).2,
   (is_valid_char hour_pos ts).1, (is_valid_char hour_pos ts).2,
   (is_valid_char day_pos ts).1, (is_valid_char day_pos ts).2⟩

/-- C6: each `increment_<g>`/`decrement_<g>` adds or subtracts
`truncate(factor * n)` with the product truncated toward zero (the source's
float product idealized as exact rational arithmetic), `n` defaults to `1`
when omitted, and concretely
`increment_second 1704110455000 0.5 = 1704110455500` and
`decrement_hour ts 0.25 = ts - HOUR / 4` for every `ts`. -/
theorem increment_decrement_truncated (ts : Int) (n : ℚ) :
    increment_second ts n = ts + pyInt ((constants.second : ℚ) * n) ∧
    decrement_second ts n = ts - pyInt ((constants.second : ℚ) * n) ∧
    increment_minute ts n = ts + pyInt ((constants.minute : ℚ) * n) ∧
    decrement_minute ts n = ts - pyInt ((constants.minute : ℚ) * n) ∧
    increment_hour ts n = ts + pyInt ((constants.hour : ℚ) * n) ∧
    decrement_hour ts n = ts - pyInt ((constants.hour : ℚ) * n) ∧
    increment_day ts n = ts + pyInt ((constants.day : ℚ) * n) ∧
    decrement_day ts n = ts - pyInt ((constants.day : ℚ) * n) ∧
    increment_second ts = increment_second ts 1 ∧
    decrement_second ts = decrement_second ts 1 ∧
    increment_minute ts = increment_minute ts 1 ∧
    decrement_minute ts = decrement_minute ts 1 ∧
    increment_hour ts = increment_hour ts 1 ∧
    decrement_hour ts = decrement_hour ts 1 ∧
    increment_day ts = increment_day ts 1 ∧
    decrement_day ts = decrement_day ts 1 ∧
    increment_second 1704110455000 (1 / 2) = 1704110455500 ∧
    decrement_hour ts (1 / 4) = ts - constants.hour / 4 := by
  refine ⟨rfl, rfl, rfl, rfl, rfl, rfl, rfl, rfl, rfl, rfl, rfl, rfl, rfl, rfl, rfl, rfl,
    ?_, ?_⟩
  · have h500 : pyInt ((constants.second : ℚ) * (1 / 2)) = 500 := by
      have : (constants.second : ℚ) * (1 / 2) = ((500 : Int) : ℚ) := by
        norm_num [constants.second]
      rw [pyInt, this]
      norm_num
    rw [increment_second, h500]
    norm_num
  · have h900000 : pyInt ((constants.hour : ℚ) * (1 / 4)) = 900000 := by
      have : (constants.hour : ℚ) * (1 / 4) = ((900000 : Int) : ℚ) := by
        norm_num [constants.hour]
      rw [pyInt, this]
      norm_num
    rw [decrement_hour, h900000]
    norm_num [constants.hour]

theorem some_bind_eval {α β : Type} (a : α) (g : α → Option β) :
    (some a).bind g = g a :=
  rfl

/-- C7: floor and ceil are idempotent for every positive factor: feeding the
result of `floor ts f` (resp. `ceil ts f`) back through the same operation
returns it unchanged. -/
theorem floor_ceil_idempotent (ts f : Int) (hf : 0 < f) :
    (floor ts f).bind (fun x => floor x f) = floor ts f ∧
    (ceil ts f).bind (fun y => ceil y f) = ceil ts f := by
  constructor
  · rw [floor_of_pos ts hf, some_bind_eval, floor_of_pos _ hf,
      Int.ediv_mul_cancel (dvd_mul_left f _)]
  · obtain ⟨x, hx, hxd, _, _, _⟩ := ceil_char ts f hf
    rw [hx, some_bind_eval]
    exact ceil_of_dvd x hf hxd

/-- C7 witness: idempotence evaluated at `ts = 5500`, `f = 1000`; both
composites agree with the single application. -/
theorem floor_ceil_idempotent_witness :
    (floor 5500 1000).bind (fun x => floor x 1000) = floor 5500 1000 ∧
    (ceil 5500 1000).bind (fun y => ceil y 1000) = ceil 5500 1000 :=
  floor_ceil_idempotent 5500 1000 (by norm_num)

/-- C9: the four unit constants are exactly 1000, 60000, 3600000 and
86400000 milliseconds, and `floor`/`ceil` default their omitted factor to
the hour constant 3600000. -/
theorem constants_values_default_factor :
    constants.second = 1000 ∧ constants.minute = 60000 ∧ constants.hour = 3600000 ∧
    constants.day = 86400000 ∧ (∀ ts : Int, floor ts = floor ts 3600000) ∧
    (∀ ts : Int, ceil ts = ceil ts 3600000) :=
  ⟨rfl, rfl, rfl, rfl, fun _ => rfl, fun _ => rfl⟩

/-- C10: with a zero factor both `floor` and `ceil` hit Python's division by
zero (modelled as `none`) for every timestamp: the error branch, not a value
or a loop. -/
theorem floor_ceil_zero_factor_error (ts : Int) :
    floor ts 0 = none ∧ ceil ts 0 = none := by
  refine ⟨by simp [floor, pyFloorDiv], ?_⟩
  by_cases h : 0 ≤ ts
  · simp [ceil, h, pyFloorDiv]
  · simp [ceil, h, pyFloorDiv]

end Milliseconds
